import Mathlib

/-!
# MediaCenterBot: a shallow embedding of `index.js`

The script is a linear sequence of awaited calls.  Every function of the
source becomes a pure Lean function; the outside world (clock, host time
zone, lock file, HTTP endpoints, local image folder, random numbers) is
passed in explicitly.  A thrown JavaScript error is `Except.error`, `NaN`
is `none`, `null`/`undefined` are `none` or a dedicated constructor.
-/

namespace MediaCenterBot

/-! ## JavaScript strings -/

/-- White space and line terminators, the code points that
`String.prototype.trim` and `parseInt` skip. -/
def isJsWhiteSpace (c : Char) : Bool :=
  let n := c.toNat
  n = 0x09 || n = 0x0A || n = 0x0B || n = 0x0C || n = 0x0D || n = 0x20 || n = 0xA0
    || n = 0x1680 || (0x2000 ≤ n && n ≤ 0x200A) || n = 0x2028 || n = 0x2029
    || n = 0x202F || n = 0x205F || n = 0x3000 || n = 0xFEFF

/-- Characters of a trimmed string: white space dropped at both ends. -/
def trimChars (cs : List Char) : List Char :=
  ((cs.dropWhile isJsWhiteSpace).reverse.dropWhile isJsWhiteSpace).reverse

/-- Model of `String.prototype.trim`. -/
def trim (s : String) : String := ⟨trimChars s.data⟩

/-- Pieces of a character list cut at every occurrence of `sep`. -/
def splitChars (sep : Char) : List Char → List (List Char)
  | [] => [[]]
  | c :: cs =>
    if c = sep then [] :: splitChars sep cs
    else
      match splitChars sep cs with
      | [] => [[c]]
      | p :: ps => (c :: p) :: ps

/-- Model of `String.prototype.split` with a one-character separator. -/
def split (s : String) (sep : Char) : List String :=
  (splitChars sep s.data).map String.mk

/-- Value of a character as a digit in radix up to 36. -/
def digitValue (c : Char) : Option Nat :=
  let n := c.toNat
  if 48 ≤ n ∧ n ≤ 57 then some (n - 48)
  else if 97 ≤ n ∧ n ≤ 122 then some (n - 97 + 10)
  else if 65 ≤ n ∧ n ≤ 90 then some (n - 65 + 10)
  else none

/-- Whether `c` is a digit of the given radix. -/
def isRadixDigit (radix : Nat) (c : Char) : Bool :=
  match digitValue c with
  | some v => decide (v < radix)
  | none => false

/-- Whether the characters start with `0x` or `0X`. -/
def hasHexMarker : List Char → Bool
  | a :: b :: _ => a = Char.ofNat 48 && (b = Char.ofNat 120 || b = Char.ofNat 88)
  | _ => false

/-- Model of `parseInt(s)` without a radix argument; `none` is `NaN`.  The
value is kept exact: the script only compares it with a day of month or a
month index, where the rounding of a double cannot change the answer. -/
def parseInt (s : String) : Option Int :=
  let cs := s.data.dropWhile isJsWhiteSpace
  let negative := decide (cs.head? = some (Char.ofNat 45))
  let cs := if cs.head? = some (Char.ofNat 45) ∨ cs.head? = some (Char.ofNat 43) then cs.tail else cs
  let hex := hasHexMarker cs
  let radix := if hex then 16 else 10
  let cs := if hex then cs.drop 2 else cs
  let ds := cs.takeWhile (isRadixDigit radix)
  if ds = [] then none
  else
    let v : Int := (ds.foldl (fun acc c => acc * radix + (digitValue c).getD 0) 0 : Nat)
    some (if negative then -v else v)

/-! ## Dates -/

/-- A calendar date of the proleptic Gregorian calendar; `month` is 1-based. -/
structure CivilDate where
  year : Int
  month : Nat
  day : Nat
deriving DecidableEq, Repr

/-- Calendar date of a day number counted from 1970-01-01, as the `Date`
getters of JavaScript compute it. -/
def civilFromDays (z0 : Int) : CivilDate :=
  let z := z0 + 719468
  let era := z / 146097
  let doe := z - era * 146097
  let yoe := (doe - doe / 1460 + doe / 36524 - doe / 146096) / 365
  let doy := doe - (365 * yoe + yoe / 4 - yoe / 100)
  let mp := (5 * doy + 2) / 153
  let d := doy - (153 * mp + 2) / 5 + 1
  let m := if mp < 10 then mp + 3 else mp - 9
  let y := yoe + era * 400
  ⟨if m ≤ 2 then y + 1 else y, m.toNat, d.toNat⟩

/-- Milliseconds in a day. -/
def msPerDay : Int := 86400000

/-- Calendar date shown by the host-local getters of a `Date` holding the
time value `date`.  The host time zone is `tz`: `tz t` is the value of
`getTimezoneOffset()` for a `Date` holding `t`, in minutes (UTC minus local
time).  The getters use the offset in force at `date` itself. -/
def localCivil (tz : Int → Int) (date : Int) : CivilDate :=
  civilFromDays ((date - tz date * 60000) / msPerDay)

/-- Model of `Date.prototype.getDate`. -/
def getDate (tz : Int → Int) (date : Int) : Nat := (localCivil tz date).day

/-- Model of `Date.prototype.getMonth` (0-based). -/
def getMonth (tz : Int → Int) (date : Int) : Nat := (localCivil tz date).month - 1

/-- Model of `Date.prototype.getFullYear`. -/
def getFullYear (tz : Int → Int) (date : Int) : Int := (localCivil tz date).year

/-- The zone `America/Santiago` around the end of daylight saving time on
2024-04-07T03:00:00Z: offset 180 minutes before, 240 minutes from then on. -/
def santiagoZone (t : Int) : Int := if t < 1712458800000 then 180 else 240

/-- Calendar date of a time value in the zone `Asia/Krasnoyarsk`, which is
UTC+7 (the zone has had that offset since 2014-10-26). -/
def krasnoyarskZoneCivil (date : Int) : CivilDate :=
  civilFromDays ((date + 7 * 60 * 60000) / msPerDay)

/-- Russian month names in the genitive, as the `ru-RU` locale prints them
after a day number. -/
def ruMonthGenitive : Nat → String
  | 1 => "января"
  | 2 => "февраля"
  | 3 => "марта"
  | 4 => "апреля"
  | 5 => "мая"
  | 6 => "июня"
  | 7 => "июля"
  | 8 => "августа"
  | 9 => "сентября"
  | 10 => "октября"
  | 11 => "ноября"
  | _ => "декабря"

/-- Model of `date.toLocaleDateString` with locale `ru-RU`, options
`timeZone: Asia/Krasnoyarsk`, `day: numeric`, `month: long`, and
`year: numeric` when `withYear` is set. -/
def toLocaleDateStringRu (withYear : Bool) (date : Int) : String :=
  let c := krasnoyarskZoneCivil date
  let dayMonth := toString c.day ++ " " ++ ruMonthGenitive c.month
  if withYear then dayMonth ++ " " ++ toString c.year ++ " г." else dayMonth

/-- Source `getKrasnoyarskDate`: `now` is `new Date().getTime()`,
`localOffset` is `now.getTimezoneOffset()`.  The result is the time value of
the shifted `Date`. -/
def getKrasnoyarskDate (now localOffset : Int) : Int :=
  let krasnoyarskOffset : Int := 7 * 60
  now + (krasnoyarskOffset + localOffset) * 60000

/-- Source `formatKrasnoyarskDate`. -/
def formatKrasnoyarskDate (now localOffset : Int) : String :=
  let date := getKrasnoyarskDate now localOffset
  toLocaleDateStringRu false date

/-- Source `getFormattedKrasnoyarskDate`. -/
def getFormattedKrasnoyarskDate (now localOffset : Int) : String :=
  let date := getKrasnoyarskDate now localOffset
  toLocaleDateStringRu true date

/-- Calendar date of the instant `t` in UTC+7: what the specification calls
today. -/
def utcPlus7Date (t : Int) : CivilDate :=
  civilFromDays ((t + 420 * 60000) / msPerDay)

/-! ## Lock manager -/

/-- What a read of the lock file meets. -/
inductive LockFile where
  | absent
  | content (c : String)
  | unreadable (code : String)
deriving DecidableEq, Repr

/-- A file-system error, with its `code`. -/
structure FsError where
  code : String
deriving DecidableEq, Repr

/-- Model of `fs.readFile(CONFIG.lockFile, utf8)`. -/
def readLockFile : LockFile → Except FsError String
  | .absent => .error ⟨"ENOENT"⟩
  | .content c => .ok c
  | .unreadable code => .error ⟨code⟩

/-- Model of `fs.writeFile(CONFIG.lockFile, data, utf8)`; `writeOk` tells
whether the write succeeds, a failed write leaves the file as it was. -/
def writeLockFile (writeOk : Bool) (data : String) (_file : LockFile) : Except FsError LockFile :=
  if writeOk then .ok (.content data) else .error ⟨"EACCES"⟩

/-- Source `checkAndCreateLock`: the returned flag and the lock file after
the call. -/
def checkAndCreateLock (now localOffset : Int) (writeOk : Bool) (file : LockFile) :
    Bool × LockFile :=
  let todayFormatted := getFormattedKrasnoyarskDate now localOffset
  match readLockFile file with
  | .error error =>
    if error.code = "ENOENT" then
      match writeLockFile writeOk todayFormatted file with
      | .ok file1 => (true, file1)
      | .error _ => (false, file)
    else (false, file)
  | .ok lockContent =>
    if trim lockContent = todayFormatted then (false, file)
    else
      match writeLockFile writeOk todayFormatted file with
      | .ok file1 => (true, file1)
      | .error _ => (false, file)

/-- Reference behaviour of the lock check in the words of the
specification, for today's long-form date `d`. -/
def lockReference (d : String) : LockFile → Bool × LockFile
  | .absent => (true, .content d)
  | .content c => if trim c = d then (false, .content c) else (true, .content d)
  | .unreadable code => (false, .unreadable code)

/-- A sequence of `checkAndCreateLock` calls on one host: each call has its
instant and the outcome of its write, the file is carried from call to
call.  Returns the flags in call order and the final file. -/
def lockCalls (localOffset : Int) : List (Int × Bool) → LockFile → List Bool × LockFile
  | [], file => ([], file)
  | (now, writeOk) :: rest, file =>
    let r := checkAndCreateLock now localOffset writeOk file
    let rs := lockCalls localOffset rest r.2
    (r.1 :: rs.1, rs.2)

/-! ## Birthday filter -/

/-- The `bdate` field of a member as the script may see it. -/
inductive BDate where
  | undefined
  | null
  | str (s : String)
deriving DecidableEq, Repr

/-- Source `isBirthdayToday`, on a host with time zone `tz`: the shift of
`getKrasnoyarskDate` uses the offset read at `now`, the getters read the
shifted `Date` with the offset in force at the shifted instant. -/
def isBirthdayToday (now : Int) (tz : Int → Int) (bdate : BDate) : Bool :=
  match bdate with
  | .undefined => false
  | .null => false
  | .str s =>
    if s = "" then false
    else
      let dateParts := split s (Char.ofNat 46)
      if dateParts.length < 2 then false
      else
        let today := getKrasnoyarskDate now (tz now)
        let userDay := parseInt (dateParts.getD 0 "")
        let userMonth := (parseInt (dateParts.getD 1 "")).map (fun m => m - 1)
        decide (some ((getDate tz today : Nat) : Int) = userDay) &&
          decide (some ((getMonth tz today : Nat) : Int) = userMonth)

/-! ## Post composer -/

/-- A group member as returned by the membership API. -/
structure Member where
  id : Int
  first_name : String
  last_name : String
  bdate : BDate
deriving DecidableEq, Repr

/-- Source `createCongratulationsPost`. -/
def createCongratulationsPost (now localOffset : Int) (birthdayPeople : List Member) : String :=
  let formattedDate := formatKrasnoyarskDate now localOffset
  let postText := "🎉 " ++ formattedDate ++ "\n\nСегодня день рождения празднуют:\n\n"
  if birthdayPeople.length = 0 then
    "📅 " ++ formattedDate ++ "\n\nСегодня именинников нет 😔"
  else
    let postText := birthdayPeople.foldl
      (fun acc person =>
        acc ++ ("@id" ++ toString person.id ++ " (" ++ person.first_name ++ " "
          ++ person.last_name ++ ")\n"))
      postText
    let postText := postText ++ "\n💐 Присоединяйтесь к поздравлениям в комментариях!\n"
    postText ++ "🎂 Желаем счастья, здоровья и успехов!"

/-- The fixed message for a day without birthdays. -/
def noBirthdaysMessage (formattedDate : String) : String :=
  "📅 " ++ formattedDate ++ "\n\nСегодня именинников нет 😔"

/-- The header of a post with birthdays. -/
def birthdayHeader (formattedDate : String) : String :=
  "🎉 " ++ formattedDate ++ "\n\nСегодня день рождения празднуют:\n\n"

/-- The mention line of one member. -/
def mentionLine (person : Member) : String :=
  "@id" ++ toString person.id ++ " (" ++ person.first_name ++ " " ++ person.last_name ++ ")\n"

/-- The fixed closing block. -/
def closingBlock : String :=
  "\n💐 Присоединяйтесь к поздравлениям в комментариях!\n🎂 Желаем счастья, здоровья и успехов!"

/-! ## Errors and HTTP -/

/-- Decidable equality of results, so that closed runs can be evaluated. -/
instance instDecidableEqExcept {ε α : Type} [DecidableEq ε] [DecidableEq α] :
    DecidableEq (Except ε α) := fun a b =>
  match a, b with
  | .ok x, .ok y => if h : x = y then isTrue (by rw [h]) else isFalse (fun h1 => h (by cases h1; rfl))
  | .error x, .error y =>
    if h : x = y then isTrue (by rw [h]) else isFalse (fun h1 => h (by cases h1; rfl))
  | .ok _, .error _ => isFalse (fun h => by cases h)
  | .error _, .ok _ => isFalse (fun h => by cases h)

/-- The `data` of an HTTP error response as a catch handler reads it:
`nullish` is `null` or `undefined`; any other value is `value m`, where `m`
is its `.error?.message`. -/
inductive ErrorBody where
  | nullish
  | value (errorMessage : Option String)
deriving DecidableEq, Repr

/-- A thrown JavaScript error: its `message` and, for an HTTP error raised
by axios, `response.status` and `response.data`. -/
structure JsError where
  message : String
  response : Option (Nat × ErrorBody)
deriving DecidableEq, Repr

/-- A `TypeError` or a plain `Error`: no `response` property. -/
def plainError (message : String) : JsError := ⟨message, none⟩

/-- Outcome of an axios request. -/
inductive AxiosResult (α : Type) where
  | ok (data : α)
  | httpError (status : Nat) (body : ErrorBody)
  | networkError (message : String)
deriving DecidableEq, Repr

/-- The error axios throws for an answer with an HTTP error status. -/
def httpErrorThrown (status : Nat) (body : ErrorBody) : JsError :=
  ⟨"Request failed with status code " ++ toString status, some (status, body)⟩

/-- The `data` of a social-network API answer: an error payload or a
`response`. -/
inductive VkPayload (α : Type) where
  | error (error_msg : String)
  | response (r : α)
deriving DecidableEq, Repr

/-- An opaque byte buffer. -/
abbrev Bytes := List Nat

/-- The image-search block of the configuration; an absent or empty string
is falsy. -/
structure GoogleSearchConfig where
  enable : Bool
  apiKey : Option String
  searchEngineId : Option String
  query : Option String
  fallbackToLocal : Option Bool
deriving DecidableEq, Repr

/-- The parsed `config.json`. -/
structure Config where
  accessToken : String
  apiVersion : String
  groupId : String
  lockFile : String
  fromGroup : String
  googleSearch : Option GoogleSearchConfig
deriving DecidableEq, Repr

/-- Truthiness of an optional string: present and not empty. -/
def truthy : Option String → Bool
  | some s => s ≠ ""
  | none => false

/-! ## Group resolver -/

/-- Source `getGroupId`; `lookup` answers the `groups.getById` request with
the ids of the groups found. -/
def getGroupId (lookup : String → AxiosResult (VkPayload (List Int))) (groupId : String) :
    Except JsError String :=
  if groupId.data.head? = some (Char.ofNat 45) then .ok groupId
  else
    match lookup groupId with
    | .httpError status body => .error (httpErrorThrown status body)
    | .networkError message => .error (plainError message)
    | .ok (.error error_msg) => .error (plainError ("Ошибка получения ID группы: " ++ error_msg))
    | .ok (.response groups) =>
      match groups.head? with
      | none => .error (plainError "Группа не найдена. Проверьте корректность groupId.")
      | some id => .ok ("-" ++ toString id)

/-! ## Member fetcher -/

/-- One page of `groups.getMembers`. -/
structure MembersPage where
  items : List Member
  count : Nat
deriving DecidableEq, Repr

/-- What the member fetcher does to the outside: page requests and waits. -/
inductive FetchEvent where
  | request (offset : Nat)
  | delay (ms : Nat)
deriving DecidableEq, Repr

/-- The `while (true)` loop of `getAllGroupMembers`: one iteration per unit
of fuel, `none` when the fuel runs out before the loop ends.  `api` answers
the page request at an offset. -/
def getAllGroupMembersLoop (api : Nat → AxiosResult (VkPayload MembersPage)) :
    Nat → List Member → Nat → List FetchEvent →
      Option (Except JsError (List Member) × List FetchEvent)
  | 0, _, _, _ => none
  | fuel + 1, allMembers, offset, log =>
    let count := 1000
    let log := log ++ [FetchEvent.request offset]
    match api offset with
    | .httpError status body =>
      some (.error (httpErrorThrown status body), log)
    | .networkError message => some (.error (plainError message), log)
    | .ok (.error error_msg) => some (.error (plainError ("Ошибка API: " ++ error_msg)), log)
    | .ok (.response page) =>
      let members := page.items
      let allMembers := allMembers ++ members
      if members.length = 0 ∨ offset + count ≥ page.count then some (.ok allMembers, log)
      else getAllGroupMembersLoop api fuel allMembers (offset + count) (log ++ [FetchEvent.delay 500])

/-- Source `getAllGroupMembers`, with the fuel of its loop. -/
def getAllGroupMembers (api : Nat → AxiosResult (VkPayload MembersPage)) (fuel : Nat) :
    Option (Except JsError (List Member) × List FetchEvent) :=
  getAllGroupMembersLoop api fuel [] 0 []

/-- The API of the pagination claim: the request at offset `o` is answered
with the items `o .. o + 1000` of `L` and the total count. -/
def sliceApi (L : List Member) (offset : Nat) : AxiosResult (VkPayload MembersPage) :=
  .ok (.response ⟨(L.drop offset).take 1000, L.length⟩)

/-- Number of pages the claim expects for `n` members. -/
def expectedPages (n : Nat) : Nat := max 1 ((n + 999) / 1000)

/-- The offsets of the first `k` pages. -/
def pageOffsets (k : Nat) : List Nat := (List.range k).map (fun i => i * 1000)

/-- The requests of a fetch in order. -/
def requestsOf (log : List FetchEvent) : List Nat :=
  log.filterMap (fun e => match e with | .request o => some o | .delay _ => none)

/-! ## Image provider -/

/-- The `data` of a successful image-search answer: `nullish`, or a value
with its `items` (the links of the results) when it has any. -/
inductive SearchData where
  | nullish
  | value (items : Option (List String))
deriving DecidableEq, Repr

/-- The parameters of the image-search request that vary. -/
structure SearchParams where
  key : String
  cx : String
  q : String
deriving DecidableEq, Repr

/-- The outside world of the image provider.  `pickSearch n` and
`pickLocal n` stand for the random numbers drawn for a list of `n`
candidates; `urlParses` tells whether `new URL(link)` succeeds. -/
structure ImageEnv where
  search : SearchParams → AxiosResult SearchData
  pickSearch : Nat → Nat
  urlParses : String → Bool
  download : String → AxiosResult Bytes
  readdir : Except FsError (List String)
  pickLocal : Nat → Nat
  readFile : String → Except FsError Bytes

/-- The catch handler of `getImageFromGoogleSearch`.  Its second branch
evaluates `error.response.data.error?.message`, which throws when
`error.response.data` is `null` or `undefined`. -/
def googleSearchCatch (error : JsError) : Except JsError (Option Bytes) :=
  match error.response with
  | some (status, data) =>
    if status = 429 then .ok none
    else
      match data with
      | .nullish => .error (plainError "Cannot read properties of null (reading error)")
      | .value _ => .ok none
  | none => .ok none

/-- The try block of `getImageFromGoogleSearch`. -/
def googleSearchTry (gs : GoogleSearchConfig) (env : ImageEnv) : Except JsError (Option Bytes) :=
  if !truthy gs.apiKey || !truthy gs.searchEngineId then .ok none
  else
    let q := if truthy gs.query then gs.query.getD ""
      else "красивые поздравительные открытки с днем рождения"
    match env.search ⟨gs.apiKey.getD "", gs.searchEngineId.getD "", q⟩ with
    | .httpError status body => .error (httpErrorThrown status body)
    | .networkError message => .error (plainError message)
    | .ok .nullish => .error (plainError "Cannot read properties of null (reading items)")
    | .ok (.value none) => .ok none
    | .ok (.value (some items)) =>
      if items.length = 0 then .ok none
      else
        let randomIndex := env.pickSearch items.length % items.length
        let imageUrl := items.getD randomIndex ""
        if !env.urlParses imageUrl then .error (plainError "Invalid URL")
        else
          match env.download imageUrl with
          | .httpError status body => .error (httpErrorThrown status body)
          | .networkError message => .error (plainError message)
          | .ok data => .ok (some data)

/-- Source `getImageFromGoogleSearch`. -/
def getImageFromGoogleSearch (gs : GoogleSearchConfig) (env : ImageEnv) :
    Except JsError (Option Bytes) :=
  match googleSearchTry gs env with
  | .ok r => .ok r
  | .error error => googleSearchCatch error

/-- Model of `path.extname` on a file name without directory part. -/
def extname (file : String) : String :=
  let cs := file.data
  let tailRev := cs.reverse.takeWhile (fun c => c ≠ Char.ofNat 46)
  if tailRev.length = cs.length then ""
  else
    let stem := cs.take (cs.length - tailRev.length - 1)
    if stem = [] ∨ cs = [Char.ofNat 46, Char.ofNat 46] then ""
    else ⟨Char.ofNat 46 :: tailRev.reverse⟩

/-- The extensions `getImageFromLocalFolder` accepts. -/
def imageExtensions : List String := [".jpg", ".jpeg", ".png", ".gif", ".bmp"]

/-- Model of `toLowerCase` on an extension: none of the accepted extensions
is the lower case of a string with a non-ASCII letter. -/
def toLowerCase (s : String) : String := ⟨s.data.map Char.toLower⟩

/-- Source `getImageFromLocalFolder`: every failure is caught and gives
`null`. -/
def getImageFromLocalFolder (env : ImageEnv) : Option Bytes :=
  match env.readdir with
  | .error _ => none
  | .ok files =>
    let imageFiles := files.filter (fun file => imageExtensions.contains (toLowerCase (extname file)))
    if imageFiles.length = 0 then none
    else
      let randomImage := imageFiles.getD (env.pickLocal imageFiles.length % imageFiles.length) ""
      match env.readFile randomImage with
      | .error _ => none
      | .ok imageBuffer => some imageBuffer

/-- The providers `createImageBuffer` turns to. -/
inductive ImageStep where
  | searchProvider
  | localFolder
deriving DecidableEq, Repr

/-- Source `createImageBuffer`: its result and the providers it called, in
order. -/
def createImageBuffer (config : Config) (env : ImageEnv) :
    Except JsError (Option Bytes) × List ImageStep :=
  match config.googleSearch with
  | some gs =>
    if gs.enable then
      match getImageFromGoogleSearch gs env with
      | .error error => (.error error, [.searchProvider])
      | .ok (some googleImageBuffer) => (.ok (some googleImageBuffer), [.searchProvider])
      | .ok none => (.ok (getImageFromLocalFolder env), [.searchProvider, .localFolder])
    else (.ok (getImageFromLocalFolder env), [.localFolder])
  | none => (.ok (getImageFromLocalFolder env), [.localFolder])

/-! ## Publisher -/

/-- The form fields of a `wall.post` call; `attachments` is `none` when the
parameter is not sent. -/
structure PostParams where
  owner_id : String
  from_group : String
  message : String
  access_token : String
  v : String
  attachments : Option String
deriving DecidableEq, Repr

/-- What the upload server returns for the uploaded bytes. -/
structure UploadData where
  server : String
  photo : String
  hash : String
deriving DecidableEq, Repr

/-- A photo saved to the group album. -/
structure Photo where
  owner_id : Int
  id : Int
deriving DecidableEq, Repr

/-- The `response` of a successful `wall.post`. -/
structure WallPostResponse where
  post_id : Nat
deriving DecidableEq, Repr

/-- The HTTP calls of the publisher. -/
inductive ApiCall where
  | getWallUploadServer (group_id : Option Nat)
  | upload (upload_url : String) (photo : Bytes)
  | saveWallPhoto (group_id : Option Nat) (uploaded : UploadData)
  | wallPost (params : PostParams)
deriving DecidableEq, Repr

/-- The endpoints the publisher talks to.  `wallPost k` answers the
`wall.post` call made after `k` earlier ones. -/
structure PublishEnv where
  getWallUploadServer : Option Nat → AxiosResult (VkPayload String)
  upload : String → Bytes → AxiosResult UploadData
  saveWallPhoto : Option Nat → UploadData → AxiosResult (VkPayload (List Photo))
  wallPost : Nat → PostParams → AxiosResult (VkPayload WallPostResponse)

/-- Whether a call is a `wall.post`. -/
def ApiCall.isWallPost : ApiCall → Bool
  | .wallPost _ => true
  | _ => false

/-- The value of `Math.abs(parseInt(ownerId))`, `none` for `NaN`. -/
def groupIdParam (ownerId : String) : Option Nat := (parseInt ownerId).map Int.natAbs

/-- The `if (imageBuffer)` block of `publishPostToGroup`: the three steps
of the upload pipeline.  Returns the attachment reference, or the error a
step threw, and the calls made. -/
def uploadImage (env : PublishEnv) (ownerId : String) (imageBuffer : Bytes) :
    Except JsError String × List ApiCall :=
  let group_id := groupIdParam ownerId
  let calls := [ApiCall.getWallUploadServer group_id]
  match env.getWallUploadServer group_id with
  | .httpError status body => (.error (httpErrorThrown status body), calls)
  | .networkError message => (.error (plainError message), calls)
  | .ok (.error error_msg) =>
    (.error (plainError ("Ошибка получения сервера загрузки: " ++ error_msg)), calls)
  | .ok (.response upload_url) =>
    let calls := calls ++ [ApiCall.upload upload_url imageBuffer]
    match env.upload upload_url imageBuffer with
    | .httpError status body => (.error (httpErrorThrown status body), calls)
    | .networkError message => (.error (plainError message), calls)
    | .ok uploaded =>
      let calls := calls ++ [ApiCall.saveWallPhoto group_id uploaded]
      match env.saveWallPhoto group_id uploaded with
      | .httpError status body => (.error (httpErrorThrown status body), calls)
      | .networkError message => (.error (plainError message), calls)
      | .ok (.error error_msg) =>
        (.error (plainError ("Ошибка сохранения фото: " ++ error_msg)), calls)
      | .ok (.response []) =>
        (.error (plainError "Cannot read properties of undefined (reading owner_id)"), calls)
      | .ok (.response (photo :: _)) =>
        (.ok ("photo" ++ toString photo.owner_id ++ "_" ++ toString photo.id), calls)

/-- One `wall.post` call and the check of its answer. -/
def wallPostCall (env : PublishEnv) (k : Nat) (postParams : PostParams) :
    Except JsError WallPostResponse :=
  match env.wallPost k postParams with
  | .httpError status body => .error (httpErrorThrown status body)
  | .networkError message => .error (plainError message)
  | .ok (.error error_msg) => .error (plainError ("Ошибка API при публикации: " ++ error_msg))
  | .ok (.response r) => .ok r

/-- The try block of `publishPostToGroup`. -/
def publishTry (config : Config) (env : PublishEnv) (ownerId postText : String)
    (imageBuffer : Option Bytes) : Except JsError WallPostResponse × List ApiCall :=
  let uploaded : Except JsError String × List ApiCall :=
    match imageBuffer with
    | some bytes => uploadImage env ownerId bytes
    | none => (.ok "", [])
  match uploaded with
  | (.error error, calls) => (.error error, calls)
  | (.ok attachments, calls) =>
    let postParams : PostParams :=
      ⟨ownerId, config.fromGroup, postText, config.accessToken, config.apiVersion,
        if attachments ≠ "" then some attachments else none⟩
    (wallPostCall env 0 postParams, calls ++ [ApiCall.wallPost postParams])

/-- Source `publishPostToGroup`: its result and the HTTP calls it made, in
order. -/
def publishPostToGroup (config : Config) (env : PublishEnv) (ownerId postText : String)
    (imageBuffer : Option Bytes) : Except JsError WallPostResponse × List ApiCall :=
  match publishTry config env ownerId postText imageBuffer with
  | (.ok r, calls) => (.ok r, calls)
  | (.error error, calls) =>
    let postParams : PostParams :=
      ⟨ownerId, config.fromGroup, postText, config.accessToken, config.apiVersion, none⟩
    let calls1 := calls ++ [ApiCall.wallPost postParams]
    match wallPostCall env (calls.countP ApiCall.isWallPost) postParams with
    | .ok r => (.ok r, calls1)
    | .error _ => (.error error, calls1)

/-- The upload pipeline fails at one of its three steps: the upload server
is not obtained, or the bytes are not uploaded, or no photo is saved. -/
def UploadPipelineFails (env : PublishEnv) (ownerId : String) (bytes : Bytes) : Prop :=
  (∀ url, env.getWallUploadServer (groupIdParam ownerId) ≠ .ok (.response url)) ∨
  (∃ url, env.getWallUploadServer (groupIdParam ownerId) = .ok (.response url) ∧
    ∀ d, env.upload url bytes ≠ .ok d) ∨
  (∃ url d, env.getWallUploadServer (groupIdParam ownerId) = .ok (.response url) ∧
    env.upload url bytes = .ok d ∧
    ∀ photo rest, env.saveWallPhoto (groupIdParam ownerId) d ≠ .ok (.response (photo :: rest)))

/-! ## Orchestrator -/

/-- Everything outside the script that a run depends on.  `config` is what
`loadConfig` obtains (`none` when `config.json` cannot be read or parsed);
the instants read by the successive `new Date()` calls of one run are
identified with `now`; `tz` is the host time zone, as for `localCivil`. -/
structure World where
  now : Int
  tz : Int → Int
  argv : List String
  config : Option Config
  lockFile : LockFile
  writeOk : Bool
  groupsGetById : String → AxiosResult (VkPayload (List Int))
  groupsGetMembers : String → Nat → AxiosResult (VkPayload MembersPage)
  image : ImageEnv
  publish : PublishEnv

/-- The value of `now.getTimezoneOffset()` in a world. -/
def World.localOffset (w : World) : Int := w.tz w.now

/-- Source `resetLock`: the lock file after the call. -/
def resetLock (unlinkOk : Bool) : LockFile → LockFile
  | .content c => if unlinkOk then .absent else .content c
  | file => file

/-- What a run of `main` leaves: the settled promise (`ok none` is a bare
`return`), the lock file, and the HTTP calls of the publisher. -/
structure RunResult where
  outcome : Except JsError (Option (List Member))
  lockFile : LockFile
  calls : List ApiCall
deriving DecidableEq, Repr

/-- Source `main`; `none` when the member fetcher runs out of fuel. -/
def main (w : World) (fuel : Nat) : Option RunResult :=
  match w.config with
  | none => some ⟨.ok none, w.lockFile, []⟩
  | some config =>
    if w.argv.contains "--reset" then some ⟨.ok none, resetLock w.writeOk w.lockFile, []⟩
    else if w.argv.contains "--status" then some ⟨.ok none, w.lockFile, []⟩
    else if w.argv.contains "--help" || w.argv.contains "-h" then some ⟨.ok none, w.lockFile, []⟩
    else
      let lock := checkAndCreateLock w.now w.localOffset w.writeOk w.lockFile
      if !lock.1 then some ⟨.ok none, lock.2, []⟩
      else
        match getGroupId w.groupsGetById config.groupId with
        | .error error => some ⟨.error error, lock.2, []⟩
        | .ok numericGroupId =>
          match getAllGroupMembers (w.groupsGetMembers config.groupId) fuel with
          | none => none
          | some (.error error, _) => some ⟨.error error, lock.2, []⟩
          | some (.ok members, _) =>
            let birthdayPeople :=
              members.filter (fun member => isBirthdayToday w.now w.tz member.bdate)
            let postText := createCongratulationsPost w.now w.localOffset birthdayPeople
            match (createImageBuffer config w.image).1 with
            | .error error => some ⟨.error error, lock.2, []⟩
            | .ok imageBuffer =>
              match publishPostToGroup config w.publish numericGroupId postText imageBuffer with
              | (.error _, calls) => some ⟨.ok none, lock.2, calls⟩
              | (.ok _, calls) => some ⟨.ok (some birthdayPeople), lock.2, calls⟩

/-- How the process ends. -/
inductive ExitOutcome where
  | normalCompletion
  | exitFailure (code : Nat)
deriving DecidableEq, Repr

/-- The top level of the script: `main().then(...).catch(...)`.  A
fulfilled promise runs the completion handler and the process ends with
status zero; a rejected one runs `process.exit(1)`. -/
def run (w : World) (fuel : Nat) : Option ExitOutcome :=
  (main w fuel).map (fun r =>
    match r.outcome with
    | .ok _ => ExitOutcome.normalCompletion
    | .error _ => ExitOutcome.exitFailure 1)

/-! ## Shapes of input the claims speak of -/

/-- A day or month number written with two digits. -/
def twoDigits (n : Nat) : String := if n < 10 then "0" ++ toString n else toString n

/-- A day or month number as a birth date carries it: plain decimal, or
padded to two digits. -/
def renderDayMonth (padded : Bool) (n : Nat) : String :=
  if padded then twoDigits n else toString n

/-- A birth date of the form `D.M` (no year) or `D.M.Y`. -/
def birthDateString (day month : String) (year : Option String) : String :=
  match year with
  | none => day ++ "." ++ month
  | some y => day ++ "." ++ month ++ "." ++ y

/-- Whether a character is one of the decimal digits. -/
def isDecimalDigit (c : Char) : Bool := decide (48 ≤ c.toNat ∧ c.toNat ≤ 57)

/-- A component without its leading white space and without one leading
sign. -/
def afterSign (s : String) : List Char :=
  let cs := s.data.dropWhile isJsWhiteSpace
  if cs.head? = some (Char.ofNat 45) ∨ cs.head? = some (Char.ofNat 43) then cs.tail else cs

/-- Whether a component begins, after white space and one sign, with a
decimal digit. -/
def beginsWithDigit (s : String) : Bool :=
  match (afterSign s).head? with
  | some c => isDecimalDigit c
  | none => false

/-- Whether a string is a plain decimal numeral: not empty, digits only. -/
def isNumeral (s : String) : Bool := s.data ≠ [] && s.data.all isDecimalDigit

/-- Number of loop iterations the fetch needs from `offset` on, for `n`
members in all. -/
def pagesFrom (n offset : Nat) : Nat := max 1 ((n - offset + 999) / 1000)

/-- The event log of `k` pages fetched from `offset` on: a request per
page, a wait of 500 ms between two requests. -/
def fetchTrace : Nat → Nat → List FetchEvent
  | 0, _ => []
  | 1, offset => [FetchEvent.request offset]
  | k + 2, offset =>
    FetchEvent.request offset :: FetchEvent.delay 500 :: fetchTrace (k + 1) (offset + 1000)

/-! ## Sample worlds -/

/-- An image world without search answers and without a local folder. -/
def emptyImageEnv : ImageEnv :=
  ⟨fun _ => AxiosResult.networkError "offline", fun _ => 0, fun _ => true,
    fun _ => AxiosResult.networkError "offline", Except.error ⟨"ENOENT"⟩, fun _ => 0,
    fun _ => Except.error ⟨"ENOENT"⟩⟩

/-- An image world whose search request is answered with HTTP status 500
and the JSON body `null`; the local folder holds one picture. -/
def nullBodyImageEnv : ImageEnv :=
  ⟨fun _ => AxiosResult.httpError 500 ErrorBody.nullish, fun _ => 0, fun _ => true,
    fun _ => AxiosResult.networkError "offline", Except.ok ["card.png"], fun _ => 0,
    fun _ => Except.ok [137, 80, 78, 71]⟩

/-- The same world with an error body that is a JSON object. -/
def objectBodyImageEnv : ImageEnv :=
  ⟨fun _ => AxiosResult.httpError 500 (ErrorBody.value (some "backend error")), fun _ => 0,
    fun _ => true, fun _ => AxiosResult.networkError "offline", Except.ok ["card.png"],
    fun _ => 0, fun _ => Except.ok [137, 80, 78, 71]⟩

/-- A configuration with image search enabled and credentials present. -/
def searchConfig : Config :=
  ⟨"token", "5.131", "testgroup", "lock.txt", "1",
    some ⟨true, some "key", some "engine", none, none⟩⟩

/-- A configuration without image-search block. -/
def plainConfig : Config := ⟨"token", "5.131", "testgroup", "lock.txt", "1", none⟩

/-- A publisher world in which every request fails on the network. -/
def offlinePublishEnv : PublishEnv :=
  ⟨fun _ => AxiosResult.networkError "offline", fun _ _ => AxiosResult.networkError "offline",
    fun _ _ => AxiosResult.networkError "offline", fun _ _ => AxiosResult.networkError "offline"⟩

/-- A publisher world in which the upload pipeline works up to the save
step, which answers with an error payload, and every wall post is
accepted. -/
def saveFailsPublishEnv : PublishEnv :=
  ⟨fun _ => AxiosResult.ok (VkPayload.response "https://upload.example/u"),
    fun _ _ => AxiosResult.ok ⟨"1", "[]", "h"⟩,
    fun _ _ => AxiosResult.ok (VkPayload.error "save failed"),
    fun _ _ => AxiosResult.ok (VkPayload.response ⟨77⟩)⟩

/-- Two members, the first born on 1 January. -/
def sampleMembers : List Member :=
  [⟨10, "Anna", "Ivanova", BDate.str "1.1.1990"⟩, ⟨11, "Petr", "Petrov", BDate.str "15.6"⟩]

/-- A world at 2024-01-01T12:00:00Z on a UTC host, with a group of two
members; the arguments, the configuration, the lock file and the publisher
vary. -/
def sampleWorld (argv : List String) (config : Option Config) (lockFile : LockFile)
    (publish : PublishEnv) : World :=
  ⟨1704110400000, fun _ => 0, argv, config, lockFile, true,
    fun _ => AxiosResult.ok (VkPayload.response [123]),
    fun _ => sliceApi sampleMembers, emptyImageEnv, publish⟩

/-- Whether the arguments select the full flow: none of the mode flags. -/
def fullFlow (w : World) : Bool :=
  !(w.argv.contains "--reset") && !(w.argv.contains "--status") &&
    !(w.argv.contains "--help") && !(w.argv.contains "-h")

/-! ## Theorems -/

theorem civilFromDays_range (z : Int) :
    1 ≤ (civilFromDays z).day ∧ (civilFromDays z).day ≤ 31 ∧
      1 ≤ (civilFromDays z).month ∧ (civilFromDays z).month ≤ 12 := by
  simp only [civilFromDays]
  split <;> omega

theorem localCivil_getKrasnoyarskDate (now : Int) (tz : Int → Int)
    (hstable : tz (getKrasnoyarskDate now (tz now)) = tz now) :
    localCivil tz (getKrasnoyarskDate now (tz now)) = utcPlus7Date now := by
  unfold localCivil
  rw [hstable]
  unfold getKrasnoyarskDate utcPlus7Date
  congr 2
  ring

theorem dropWhile_of_head_false {p : Char → Bool} (l : List Char)
    (h : l.head?.map p = some false) : l.dropWhile p = l := by
  cases l with
  | nil => simp at h
  | cons a t =>
    simp only [List.head?_cons, Option.map_some', Option.some.injEq] at h
    simp [List.dropWhile_cons, h]

theorem trimChars_of_ends (cs : List Char)
    (h1 : cs.head?.map isJsWhiteSpace = some false)
    (h2 : cs.getLast?.map isJsWhiteSpace = some false) : trimChars cs = cs := by
  unfold trimChars
  rw [dropWhile_of_head_false cs h1, dropWhile_of_head_false cs.reverse (by simpa using h2)]
  simp

theorem day_head_not_space :
    ∀ n : Nat, n < 32 → (toString n).data.head?.map isJsWhiteSpace = some false := by
  decide

theorem trim_getFormattedKrasnoyarskDate (now localOffset : Int) :
    trim (getFormattedKrasnoyarskDate now localOffset) =
      getFormattedKrasnoyarskDate now localOffset := by
  have hd := (civilFromDays_range ((getKrasnoyarskDate now localOffset + 7 * 60 * 60000) / msPerDay))
  have hh := day_head_not_space _ (Nat.lt_succ_of_le hd.2.1)
  unfold trim
  apply String.ext
  simp only
  apply trimChars_of_ends
  · simp only [getFormattedKrasnoyarskDate, toLocaleDateStringRu, krasnoyarskZoneCivil, if_true,
      String.data_append, List.append_assoc]
    cases hx : (toString (civilFromDays ((getKrasnoyarskDate now localOffset + 7 * 60 * 60000) / msPerDay)).day).data with
    | nil => rw [hx] at hh; simp at hh
    | cons a t => rw [hx] at hh; simpa using hh
  · simp only [getFormattedKrasnoyarskDate, toLocaleDateStringRu, krasnoyarskZoneCivil, if_true,
      String.data_append]
    rw [List.getLast?_append]
    rfl

/-! ### Lock manager -/

/-- C1: with writes that succeed, `checkAndCreateLock` is the reference
behaviour of the lock check for today's long-form date, on every lock-file
state whose read error, if any, is not the not-found error: an absent file
is created with the date and the run proceeds; a file whose trimmed content
is the date blocks and stays as it is; any other content is overwritten and
the run proceeds; an unreadable file blocks and stays as it is. -/
theorem checkAndCreateLock_refines_reference (now localOffset : Int) (file : LockFile)
    (hfile : ∀ code, file = LockFile.unreadable code → code ≠ "ENOENT") :
    checkAndCreateLock now localOffset true file =
      lockReference (getFormattedKrasnoyarskDate now localOffset) file := by
  cases file with
  | absent => simp [checkAndCreateLock, lockReference, readLockFile, writeLockFile]
  | content c =>
    by_cases h : trim c = getFormattedKrasnoyarskDate now localOffset <;>
      simp [checkAndCreateLock, lockReference, readLockFile, writeLockFile, h]
  | unreadable code =>
    have hc : code ≠ "ENOENT" := hfile code rfl
    simp [checkAndCreateLock, lockReference, readLockFile, hc]

theorem checkAndCreateLock_refines_reference_witness :
    (∀ code, LockFile.unreadable "EACCES" = LockFile.unreadable code → code ≠ "ENOENT") ∧
      checkAndCreateLock 1704110400000 0 true (LockFile.unreadable "EACCES") =
        lockReference (getFormattedKrasnoyarskDate 1704110400000 0) (LockFile.unreadable "EACCES") :=
  ⟨fun code h => by cases h; decide,
    checkAndCreateLock_refines_reference 1704110400000 0 (LockFile.unreadable "EACCES")
      (fun code h => by cases h; decide)⟩

theorem checkAndCreateLock_same_day (now localOffset : Int) (writeOk : Bool) :
    checkAndCreateLock now localOffset writeOk
        (LockFile.content (getFormattedKrasnoyarskDate now localOffset)) =
      (false, LockFile.content (getFormattedKrasnoyarskDate now localOffset)) := by
  simp [checkAndCreateLock, readLockFile, trim_getFormattedKrasnoyarskDate]

theorem checkAndCreateLock_proceed_file (now localOffset : Int) (writeOk : Bool) (file : LockFile)
    (h : (checkAndCreateLock now localOffset writeOk file).1 = true) :
    (checkAndCreateLock now localOffset writeOk file).2 =
      LockFile.content (getFormattedKrasnoyarskDate now localOffset) := by
  unfold checkAndCreateLock at h ⊢
  cases file with
  | absent =>
    cases writeOk <;> simp_all [readLockFile, writeLockFile]
  | content c =>
    by_cases hc : trim c = getFormattedKrasnoyarskDate now localOffset <;>
      cases writeOk <;> simp_all [readLockFile, writeLockFile]
  | unreadable code =>
    by_cases hc : code = "ENOENT" <;> cases writeOk <;> simp_all [readLockFile, writeLockFile]

theorem lockCalls_locked (localOffset : Int) (d : String) (calls : List (Int × Bool))
    (hday : ∀ c ∈ calls, getFormattedKrasnoyarskDate c.1 localOffset = d) :
    lockCalls localOffset calls (LockFile.content d) =
      (List.replicate calls.length false, LockFile.content d) := by
  induction calls with
  | nil => simp [lockCalls]
  | cons c rest ih =>
    obtain ⟨now, writeOk⟩ := c
    have h0 : getFormattedKrasnoyarskDate now localOffset = d := hday (now, writeOk) (by simp)
    have hrest := ih (fun c hc => hday c (by simp [hc]))
    have hstep := checkAndCreateLock_same_day now localOffset writeOk
    rw [h0] at hstep
    simp [lockCalls, hstep, hrest, List.replicate_succ]

/-- C2: on one host, whatever the lock file holds at first and whatever
the writes do, calls of `checkAndCreateLock` that all render the same
long-form date let at most one of them proceed; a first call that finds no
file and whose write succeeds proceeds and leaves the date in the file, and
every later call of that day blocks and leaves the file as it is. -/
theorem lock_at_most_one_run_per_day (localOffset : Int) (d : String)
    (calls : List (Int × Bool)) (file : LockFile)
    (hday : ∀ c ∈ calls, getFormattedKrasnoyarskDate c.1 localOffset = d) :
    (lockCalls localOffset calls file).1.count true ≤ 1 ∧
      (∀ now rest, calls = (now, true) :: rest →
        lockCalls localOffset calls LockFile.absent =
          (true :: List.replicate rest.length false, LockFile.content d)) ∧
      (∀ c ∈ calls, checkAndCreateLock c.1 localOffset c.2 (LockFile.content d) =
        (false, LockFile.content d)) := by
  refine ⟨?_, ?_, ?_⟩
  · induction calls generalizing file with
    | nil => simp [lockCalls]
    | cons c rest ih =>
      obtain ⟨now, writeOk⟩ := c
      have h0 : getFormattedKrasnoyarskDate now localOffset = d := hday (now, writeOk) (by simp)
      have hrest : ∀ c ∈ rest, getFormattedKrasnoyarskDate c.1 localOffset = d :=
        fun c hc => hday c (by simp [hc])
      cases hflag : (checkAndCreateLock now localOffset writeOk file).1 with
      | false =>
        have := ih (checkAndCreateLock now localOffset writeOk file).2 hrest
        simpa [lockCalls, hflag] using this
      | true =>
        have hfile := checkAndCreateLock_proceed_file now localOffset writeOk file hflag
        rw [h0] at hfile
        have hl := lockCalls_locked localOffset d rest hrest
        simp [lockCalls, hflag, hfile, hl, List.count_replicate]
  · intro now rest hcalls
    subst hcalls
    have h0 : getFormattedKrasnoyarskDate now localOffset = d := hday (now, true) (by simp)
    have hrest : ∀ c ∈ rest, getFormattedKrasnoyarskDate c.1 localOffset = d :=
      fun c hc => hday c (by simp [hc])
    have hl := lockCalls_locked localOffset d rest hrest
    simp [lockCalls, checkAndCreateLock, readLockFile, writeLockFile, h0, hl]
  · intro c hc
    have h0 := hday c hc
    have hstep := checkAndCreateLock_same_day c.1 localOffset c.2
    rw [h0] at hstep
    exact hstep

theorem lock_at_most_one_run_per_day_witness :
    (∀ c ∈ [((1704110400000 : Int), true), (1704110460000, true), (1704114000000, false)],
        getFormattedKrasnoyarskDate c.1 0 = "2 января 2024 г.") ∧
      (lockCalls 0 [((1704110400000 : Int), true), (1704110460000, true), (1704114000000, false)]
          (LockFile.content "1 января 2024 г.")).1.count true ≤ 1 :=
  ⟨by decide,
    (lock_at_most_one_run_per_day 0 "2 января 2024 г."
      [((1704110400000 : Int), true), (1704110460000, true), (1704114000000, false)]
      (LockFile.content "1 января 2024 г.") (by decide)).1⟩

/-! ### Time provider -/

theorem rendered_date_shifted_twice (now localOffset : Int) :
    krasnoyarskZoneCivil (getKrasnoyarskDate now localOffset) =
      utcPlus7Date (now + (420 + localOffset) * 60000) := by
  unfold krasnoyarskZoneCivil getKrasnoyarskDate utcPlus7Date
  congr 2

theorem rendered_date_on_utcPlus7_host (now : Int) :
    krasnoyarskZoneCivil (getKrasnoyarskDate now (-420)) = utcPlus7Date now := by
  rw [rendered_date_shifted_twice]
  simp

/-- C3, evaluated where it fails: on a host running in UTC, at
2024-01-01T12:00:00Z, the date of the instant in UTC+7 is 1 January 2024
and `isBirthdayToday` compares against that day, yet the lock-file key and
the post header render 2 January: the shifted instant is rendered once more
in the zone `Asia/Krasnoyarsk`. -/
theorem krasnoyarsk_date_rendered_twice_shifted :
    utcPlus7Date 1704110400000 = ⟨2024, 1, 1⟩ ∧
      getDate (fun _ => 0) (getKrasnoyarskDate 1704110400000 0) = 1 ∧
      getMonth (fun _ => 0) (getKrasnoyarskDate 1704110400000 0) = 0 ∧
      isBirthdayToday 1704110400000 (fun _ => 0) (BDate.str "1.1") = true ∧
      isBirthdayToday 1704110400000 (fun _ => 0) (BDate.str "2.1") = false ∧
      getFormattedKrasnoyarskDate 1704110400000 0 = "2 января 2024 г." ∧
      formatKrasnoyarskDate 1704110400000 0 = "2 января" ∧
      krasnoyarskZoneCivil (getKrasnoyarskDate 1704110400000 0) = ⟨2024, 1, 2⟩ := by
  decide

/-! ### Birthday filter -/

theorem splitChars_ne_nil (sep : Char) (cs : List Char) : splitChars sep cs ≠ [] := by
  induction cs with
  | nil => simp [splitChars]
  | cons c cs ih =>
    unfold splitChars
    split
    · simp
    · split <;> simp

theorem splitChars_no_sep (sep : Char) (a : List Char) (h : sep ∉ a) :
    splitChars sep a = [a] := by
  induction a with
  | nil => simp [splitChars]
  | cons c cs ih =>
    have hc : c ≠ sep := fun e => h (by simp [e])
    have hcs : sep ∉ cs := fun e => h (by simp [e])
    simp [splitChars, hc, ih hcs]

theorem splitChars_append_sep (sep : Char) (a b : List Char) (h : sep ∉ a) :
    splitChars sep (a ++ sep :: b) = a :: splitChars sep b := by
  induction a with
  | nil => simp [splitChars]
  | cons c cs ih =>
    have hc : c ≠ sep := fun e => h (by simp [e])
    have hcs : sep ∉ cs := fun e => h (by simp [e])
    simp [splitChars, hc, ih hcs]

theorem renderDayMonth_parse :
    ∀ padded : Bool, ∀ n : Nat, n < 32 → parseInt (renderDayMonth padded n) = some (n : Int) := by
  decide

theorem renderDayMonth_no_dot :
    ∀ padded : Bool, ∀ n : Nat, n < 32 → Char.ofNat 46 ∉ (renderDayMonth padded n).data := by
  decide

theorem split_birthDateString (day month : String) (year : Option String)
    (hd : Char.ofNat 46 ∉ day.data) (hm : Char.ofNat 46 ∉ month.data) :
    ∃ rest, split (birthDateString day month year) (Char.ofNat 46) = day :: month :: rest := by
  cases year with
  | none =>
    refine ⟨[], ?_⟩
    have h1 : (birthDateString day month none).data = day.data ++ Char.ofNat 46 :: month.data := by
      simp [birthDateString, String.data_append]
    simp [split, h1, splitChars_append_sep _ _ _ hd, splitChars_no_sep _ _ hm]
  | some y =>
    refine ⟨(splitChars (Char.ofNat 46) y.data).map String.mk, ?_⟩
    have h1 : (birthDateString day month (some y)).data =
        day.data ++ Char.ofNat 46 :: (month.data ++ Char.ofNat 46 :: y.data) := by
      simp [birthDateString, String.data_append]
    simp [split, h1, splitChars_append_sep _ _ _ hd, splitChars_append_sep _ _ _ hm]

/-- C4: on every host, whatever its time zone does, a birth date `D.M` or
`D.M.Y` in which `D` and `M` are the day of month and the 1-based month that
`isBirthdayToday` reads from the shifted date of `getKrasnoyarskDate`,
written in plain decimal or padded to two digits, is a birthday today,
whatever the year component is; and when the host offset at the shifted
instant is the one read at the instant itself (always so on a host with a
fixed offset), that day and month are those of the instant in UTC+7. -/
theorem isBirthdayToday_matching_day_month (now : Int) (tz : Int → Int)
    (padDay padMonth : Bool) (year : Option String) :
    isBirthdayToday now tz
        (BDate.str (birthDateString
          (renderDayMonth padDay (getDate tz (getKrasnoyarskDate now (tz now))))
          (renderDayMonth padMonth (getMonth tz (getKrasnoyarskDate now (tz now)) + 1))
          year)) = true ∧
      (tz (getKrasnoyarskDate now (tz now)) = tz now →
        getDate tz (getKrasnoyarskDate now (tz now)) = (utcPlus7Date now).day ∧
          getMonth tz (getKrasnoyarskDate now (tz now)) + 1 = (utcPlus7Date now).month) := by
  have hr := civilFromDays_range
    ((getKrasnoyarskDate now (tz now) - tz (getKrasnoyarskDate now (tz now)) * 60000) / msPerDay)
  have hM1 : 1 ≤ (localCivil tz (getKrasnoyarskDate now (tz now))).month := hr.2.2.1
  have hmonth : getMonth tz (getKrasnoyarskDate now (tz now)) + 1 =
      (localCivil tz (getKrasnoyarskDate now (tz now))).month := by
    unfold getMonth
    omega
  refine ⟨?_, ?_⟩
  · have hD : getDate tz (getKrasnoyarskDate now (tz now)) < 32 := Nat.lt_succ_of_le hr.2.1
    have hM : getMonth tz (getKrasnoyarskDate now (tz now)) + 1 < 32 := by
      have : (localCivil tz (getKrasnoyarskDate now (tz now))).month ≤ 12 := hr.2.2.2
      omega
    obtain ⟨rest, hs⟩ := split_birthDateString
      (renderDayMonth padDay (getDate tz (getKrasnoyarskDate now (tz now))))
      (renderDayMonth padMonth (getMonth tz (getKrasnoyarskDate now (tz now)) + 1)) year
      (renderDayMonth_no_dot padDay _ hD) (renderDayMonth_no_dot padMonth _ hM)
    have hne : birthDateString
        (renderDayMonth padDay (getDate tz (getKrasnoyarskDate now (tz now))))
        (renderDayMonth padMonth (getMonth tz (getKrasnoyarskDate now (tz now)) + 1)) year
          ≠ "" := by
      intro h
      have h2 := congrArg String.data h
      cases year <;> simp [birthDateString, String.data_append] at h2
    unfold isBirthdayToday
    simp only [hne, if_false, hs, List.length_cons, List.getD_cons_zero, List.getD_cons_succ,
      renderDayMonth_parse padDay _ hD, renderDayMonth_parse padMonth _ hM]
    simp
  · intro hstable
    have hc := localCivil_getKrasnoyarskDate now tz hstable
    rw [hmonth]
    unfold getDate
    rw [hc]
    exact ⟨rfl, rfl⟩

theorem isBirthdayToday_across_offset_change :
    santiagoZone 1712424600000 = 180 ∧
      santiagoZone (getKrasnoyarskDate 1712424600000 (santiagoZone 1712424600000)) = 240 ∧
      utcPlus7Date 1712424600000 = ⟨2024, 4, 7⟩ ∧
      getDate santiagoZone (getKrasnoyarskDate 1712424600000 (santiagoZone 1712424600000)) = 6 ∧
      isBirthdayToday 1712424600000 santiagoZone (BDate.str "6.4") = true ∧
      isBirthdayToday 1712424600000 santiagoZone (BDate.str "7.4") = false := by
  decide

theorem isRadixDigit_ten (c : Char) (h : isDecimalDigit c = false) : isRadixDigit 10 c = false := by
  unfold isDecimalDigit at h
  unfold isRadixDigit digitValue
  simp only [decide_eq_false_iff_not] at h
  simp only [h, if_false]
  split_ifs <;> simp

theorem hasHexMarker_of_head (cs : List Char)
    (h : ∀ c, cs.head? = some c → isDecimalDigit c = false) : hasHexMarker cs = false := by
  match cs with
  | [] => rfl
  | [_] => rfl
  | a :: b :: t =>
    have ha : isDecimalDigit a = false := h a rfl
    have hne : a ≠ Char.ofNat 48 := by
      intro e
      rw [e] at ha
      exact absurd ha (by decide)
    simp [hasHexMarker, hne]

theorem takeWhile_of_head (cs : List Char)
    (h : ∀ c, cs.head? = some c → isDecimalDigit c = false) :
    cs.takeWhile (isRadixDigit 10) = [] := by
  cases cs with
  | nil => rfl
  | cons a t => simp [List.takeWhile_cons, isRadixDigit_ten a (h a rfl)]

theorem digits_of_head (cs : List Char)
    (h : ∀ c, cs.head? = some c → isDecimalDigit c = false) :
    List.takeWhile (isRadixDigit (if hasHexMarker cs = true then 16 else 10))
      (if hasHexMarker cs = true then cs.drop 2 else cs) = [] := by
  rw [hasHexMarker_of_head cs h]
  simpa using takeWhile_of_head cs h

theorem parseInt_of_not_beginsWithDigit (s : String) (h : beginsWithDigit s = false) :
    parseInt s = none := by
  have hhead : ∀ c, (afterSign s).head? = some c → isDecimalDigit c = false := by
    intro c hc
    unfold beginsWithDigit at h
    rw [hc] at h
    exact h
  have hd := digits_of_head (afterSign s) hhead
  unfold afterSign at hd
  unfold parseInt
  simp only
  rw [hd]
  rfl

/-- C5, as the code has it: `isBirthdayToday` is false on every day and
every host for a missing value (`undefined`, `null`, the empty string), for
a string with fewer than two dot-separated components, and for a string
whose day or month component `parseInt` reads as `NaN`; that is so for
every component that does not begin, after white space and one sign, with
a decimal digit. -/
theorem isBirthdayToday_missing_or_unreadable (now : Int) (tz : Int → Int) :
    isBirthdayToday now tz BDate.undefined = false ∧
      isBirthdayToday now tz BDate.null = false ∧
      isBirthdayToday now tz (BDate.str "") = false ∧
      (∀ s, (split s (Char.ofNat 46)).length < 2 →
        isBirthdayToday now tz (BDate.str s) = false) ∧
      (∀ s, parseInt ((split s (Char.ofNat 46)).getD 0 "") = none ∨
          parseInt ((split s (Char.ofNat 46)).getD 1 "") = none →
        isBirthdayToday now tz (BDate.str s) = false) ∧
      (∀ s, beginsWithDigit ((split s (Char.ofNat 46)).getD 0 "") = false ∨
          beginsWithDigit ((split s (Char.ofNat 46)).getD 1 "") = false →
        isBirthdayToday now tz (BDate.str s) = false) := by
  have key : ∀ s, parseInt ((split s (Char.ofNat 46)).getD 0 "") = none ∨
      parseInt ((split s (Char.ofNat 46)).getD 1 "") = none →
      isBirthdayToday now tz (BDate.str s) = false := by
    intro s h
    unfold isBirthdayToday
    simp only
    split_ifs
    · rfl
    · rfl
    · rcases h with h | h <;> rw [h] <;> simp
  refine ⟨rfl, rfl, rfl, ?_, key, ?_⟩
  · intro s h
    unfold isBirthdayToday
    simp only
    split_ifs <;> rfl
  · intro s h
    apply key
    rcases h with h | h
    · exact Or.inl (parseInt_of_not_beginsWithDigit _ h)
    · exact Or.inr (parseInt_of_not_beginsWithDigit _ h)

/-- C5 as stated fails: on 1 January (UTC+7) the birth date `1x.1`, whose
day component `1x` is not a number, is accepted. -/
theorem isBirthdayToday_accepts_non_number :
    isNumeral "1x" = false ∧
      split "1x.1" (Char.ofNat 46) = ["1x", "1"] ∧
      utcPlus7Date 1704110400000 = ⟨2024, 1, 1⟩ ∧
      isBirthdayToday 1704110400000 (fun _ => 0) (BDate.str "1x.1") = true := by
  decide

/-! ### Post composer -/

theorem foldl_append_eq_join (f : Member → String) (L : List Member) (init : String) :
    L.foldl (fun acc person => acc ++ f person) init = init ++ String.join (L.map f) := by
  apply String.ext
  induction L generalizing init with
  | nil => simp [String.data_append]
  | cons p ps ih => simp [ih, String.data_append]

/-- C6: for every instant, host and member list, the post for an empty
list is exactly the no-birthdays message under the date; for a non-empty
list it is the date header, then the mention lines of the members, one per
member in input order, then the closing block. -/
theorem createCongratulationsPost_shape (now localOffset : Int) (L : List Member) :
    createCongratulationsPost now localOffset [] =
        noBirthdaysMessage (formatKrasnoyarskDate now localOffset) ∧
      (∀ p ps, L = p :: ps →
        createCongratulationsPost now localOffset L =
          birthdayHeader (formatKrasnoyarskDate now localOffset)
            ++ String.join (L.map mentionLine) ++ closingBlock) ∧
      (L.map mentionLine).length = L.length := by
  refine ⟨rfl, ?_, by simp⟩
  intro p ps hL
  subst hL
  have h := foldl_append_eq_join mentionLine (p :: ps)
    (birthdayHeader (formatKrasnoyarskDate now localOffset))
  unfold mentionLine birthdayHeader at h
  unfold createCongratulationsPost
  simp only [List.length_cons, Nat.add_one_ne_zero, if_false]
  rw [h]
  apply String.ext
  simp [closingBlock, birthdayHeader, mentionLine, String.data_append]
  rfl

/-! ### Member fetcher -/

theorem offsets_shift (o k : Nat) :
    (List.range (k + 1)).map (fun i => o + i * 1000) =
      o :: (List.range k).map (fun i => (o + 1000) + i * 1000) := by
  rw [List.range_succ_eq_map]
  simp only [List.map_cons, List.map_map, Nat.zero_mul, Nat.add_zero, List.cons.injEq, true_and]
  apply List.map_congr_left
  intro i _
  simp only [Function.comp, Nat.succ_eq_add_one]
  ring

theorem fetchTrace_eq_intersperse : ∀ (k o : Nat),
    fetchTrace k o = List.intersperse (FetchEvent.delay 500)
      (((List.range k).map (fun i => o + i * 1000)).map FetchEvent.request)
  | 0, _ => by simp [fetchTrace]
  | 1, o => by simp [fetchTrace, List.range_succ]
  | k + 2, o => by
    have ih := fetchTrace_eq_intersperse (k + 1) (o + 1000)
    rw [offsets_shift (o + 1000) k] at ih
    rw [offsets_shift o (k + 1), offsets_shift (o + 1000) k]
    simp only [List.map_cons, List.intersperse_cons₂]
    simp only [List.map_cons] at ih
    rw [← ih, fetchTrace]

theorem requestsOf_intersperse (d : Nat) : ∀ xs : List Nat,
    requestsOf (List.intersperse (FetchEvent.delay d) (xs.map FetchEvent.request)) = xs
  | [] => by simp [requestsOf]
  | [x] => by simp [requestsOf]
  | x :: y :: zs => by
    have ih := requestsOf_intersperse d (y :: zs)
    simp only [List.map_cons] at ih
    simp only [List.map_cons, List.intersperse_cons₂]
    simp only [requestsOf, List.filterMap_cons] at ih ⊢
    rw [ih]

theorem count_delay_intersperse (d : Nat) : ∀ xs : List Nat,
    (List.intersperse (FetchEvent.delay d) (xs.map FetchEvent.request)).count
      (FetchEvent.delay d) = xs.length - 1
  | [] => by simp
  | [x] => by simp
  | x :: y :: zs => by
    have ih := count_delay_intersperse d (y :: zs)
    simp only [List.map_cons] at ih
    simp only [List.map_cons, List.intersperse_cons₂, List.length_cons]
    rw [List.count_cons_of_ne (by simp), List.count_cons_self, ih]
    simp

theorem getAllGroupMembersLoop_slice (L : List Member) :
    ∀ (fuel offset : Nat) (acc : List Member) (log : List FetchEvent),
      pagesFrom L.length offset ≤ fuel →
      getAllGroupMembersLoop (sliceApi L) fuel acc offset log =
        some (.ok (acc ++ L.drop offset), log ++ fetchTrace (pagesFrom L.length offset) offset) := by
  intro fuel
  induction fuel with
  | zero =>
    intro offset acc log h
    unfold pagesFrom at h
    omega
  | succ fuel ih =>
    intro offset acc log h
    have hlen : ((L.drop offset).take 1000).length = min 1000 (L.length - offset) := by
      simp [List.length_take, List.length_drop]
    by_cases hc : offset + 1000 ≥ L.length
    · have hp : pagesFrom L.length offset = 1 := by
        unfold pagesFrom
        omega
      have htake : (L.drop offset).take 1000 = L.drop offset :=
        List.take_of_length_le (by simp [List.length_drop]; omega)
      simp [getAllGroupMembersLoop, sliceApi, hc, hp, htake, fetchTrace]
    · have hp : pagesFrom L.length offset = pagesFrom L.length (offset + 1000) + 1 := by
        unfold pagesFrom
        omega
      obtain ⟨j, hj⟩ : ∃ j, pagesFrom L.length (offset + 1000) = j + 1 :=
        ⟨pagesFrom L.length (offset + 1000) - 1, by unfold pagesFrom; omega⟩
      have hne : ¬ (((L.drop offset).take 1000).length = 0) := by
        rw [hlen]
        omega
      have hfuel : pagesFrom L.length (offset + 1000) ≤ fuel := by omega
      have hrec := ih (offset + 1000) (acc ++ (L.drop offset).take 1000)
        (log ++ [FetchEvent.request offset] ++ [FetchEvent.delay 500]) hfuel
      have hsplit : (L.drop offset).take 1000 ++ L.drop (offset + 1000) = L.drop offset := by
        rw [← List.drop_drop 1000 offset L]
        exact List.take_append_drop 1000 (L.drop offset)
      unfold getAllGroupMembersLoop
      simp only [sliceApi]
      rw [if_neg (by
        intro hor
        rcases hor with h0 | h1
        · exact hne h0
        · exact hc h1)]
      rw [hrec, hp, hj, fetchTrace, ← hj]
      simp [List.append_assoc, hsplit]

/-- C7: against an API that answers the request at offset `o` with the
items `o .. o + 1000` of a list `L` and the count of `L`, and with fuel for
`max 1 (ceil (|L| / 1000))` iterations, `getAllGroupMembers` returns `L`;
its page requests are the offsets 0, 1000, 2000, ... of that many pages,
with one wait of 500 ms between two consecutive requests and none
elsewhere; for 2000 members the requests are at offsets 0 and 1000. -/
theorem getAllGroupMembers_paginates (L : List Member) (fuel : Nat)
    (hfuel : expectedPages L.length ≤ fuel) :
    getAllGroupMembers (sliceApi L) fuel =
        some (.ok L, List.intersperse (FetchEvent.delay 500)
          ((pageOffsets (expectedPages L.length)).map FetchEvent.request)) ∧
      requestsOf (List.intersperse (FetchEvent.delay 500)
          ((pageOffsets (expectedPages L.length)).map FetchEvent.request)) =
        pageOffsets (expectedPages L.length) ∧
      (pageOffsets (expectedPages L.length)).length = max 1 ((L.length + 999) / 1000) ∧
      (List.intersperse (FetchEvent.delay 500)
          ((pageOffsets (expectedPages L.length)).map FetchEvent.request)).count
        (FetchEvent.delay 500) = expectedPages L.length - 1 ∧
      (L.length = 2000 → pageOffsets (expectedPages L.length) = [0, 1000]) := by
  have hpages : pagesFrom L.length 0 = expectedPages L.length := by
    simp [pagesFrom, expectedPages]
  have hloop := getAllGroupMembersLoop_slice L fuel 0 [] [] (by rw [hpages]; exact hfuel)
  have htrace := fetchTrace_eq_intersperse (expectedPages L.length) 0
  refine ⟨?_, requestsOf_intersperse 500 _, ?_, ?_, ?_⟩
  · unfold getAllGroupMembers
    rw [hloop, hpages, htrace]
    simp [pageOffsets]
  · simp [pageOffsets, expectedPages]
  · rw [count_delay_intersperse]
    simp [pageOffsets]
  · intro h
    rw [h]
    decide

theorem getAllGroupMembers_paginates_witness :
    expectedPages (List.replicate 2000 (⟨1, "A", "B", BDate.null⟩ : Member)).length ≤ 2 ∧
      getAllGroupMembers (sliceApi (List.replicate 2000 (⟨1, "A", "B", BDate.null⟩ : Member))) 2 =
        some (.ok (List.replicate 2000 (⟨1, "A", "B", BDate.null⟩ : Member)),
          List.intersperse (FetchEvent.delay 500)
            ((pageOffsets (expectedPages
              (List.replicate 2000 (⟨1, "A", "B", BDate.null⟩ : Member)).length)).map
                FetchEvent.request)) :=
  ⟨by rw [List.length_replicate]; decide,
    (getAllGroupMembers_paginates (List.replicate 2000 (⟨1, "A", "B", BDate.null⟩ : Member)) 2
      (by rw [List.length_replicate]; decide)).1⟩

/-! ### Publisher -/

theorem uploadImage_no_wallPost (env : PublishEnv) (ownerId : String) (bytes : Bytes) :
    (uploadImage env ownerId bytes).2.filter ApiCall.isWallPost = [] := by
  unfold uploadImage
  simp only
  split
  · simp [ApiCall.isWallPost]
  · simp [ApiCall.isWallPost]
  · simp [ApiCall.isWallPost]
  · split
    · simp [ApiCall.isWallPost]
    · simp [ApiCall.isWallPost]
    · split <;> simp [ApiCall.isWallPost]

theorem uploadImage_fails (env : PublishEnv) (ownerId : String) (bytes : Bytes)
    (h : UploadPipelineFails env ownerId bytes) :
    ∃ e, (uploadImage env ownerId bytes).1 = .error e := by
  unfold uploadImage
  simp only
  rcases h with h1 | ⟨url, hu, h2⟩ | ⟨url, d, hu, hd, h3⟩
  · cases hres : env.getWallUploadServer (groupIdParam ownerId) with
    | httpError status body => exact ⟨_, rfl⟩
    | networkError message => exact ⟨_, rfl⟩
    | ok payload =>
      cases payload with
      | error msg => exact ⟨_, rfl⟩
      | response url => exact absurd hres (h1 url)
  · rw [hu]
    simp only
    cases hres : env.upload url bytes with
    | httpError status body => exact ⟨_, rfl⟩
    | networkError message => exact ⟨_, rfl⟩
    | ok d => exact absurd hres (h2 d)
  · rw [hu]
    simp only
    rw [hd]
    simp only
    cases hres : env.saveWallPhoto (groupIdParam ownerId) d with
    | httpError status body => exact ⟨_, rfl⟩
    | networkError message => exact ⟨_, rfl⟩
    | ok payload =>
      cases payload with
      | error msg => exact ⟨_, rfl⟩
      | response photos =>
        cases photos with
        | nil => exact ⟨_, rfl⟩
        | cons photo rest => exact absurd hres (h3 photo rest)

/-- C8: with image bytes present, when the upload pipeline fails at any of
its three steps and the wall-post endpoint accepts the post without
attachment, `publishPostToGroup` returns the response of that call, and the
calls it made hold exactly one wall post: the one with the same owner id
and message and no attachment parameter. -/
theorem publishPostToGroup_falls_back_to_text (config : Config) (env : PublishEnv)
    (ownerId postText : String) (bytes : Bytes) (r : WallPostResponse)
    (hfail : UploadPipelineFails env ownerId bytes)
    (haccept : env.wallPost 0
      ⟨ownerId, config.fromGroup, postText, config.accessToken, config.apiVersion, none⟩ =
        .ok (.response r)) :
    (publishPostToGroup config env ownerId postText (some bytes)).1 = .ok r ∧
      (publishPostToGroup config env ownerId postText (some bytes)).2.filter ApiCall.isWallPost =
        [ApiCall.wallPost
          ⟨ownerId, config.fromGroup, postText, config.accessToken, config.apiVersion, none⟩] := by
  obtain ⟨e, he⟩ := uploadImage_fails env ownerId bytes hfail
  have hnone := uploadImage_no_wallPost env ownerId bytes
  have hpair : uploadImage env ownerId bytes = (.error e, (uploadImage env ownerId bytes).2) :=
    Prod.ext he rfl
  have hcount : (uploadImage env ownerId bytes).2.countP ApiCall.isWallPost = 0 := by
    rw [List.countP_eq_length_filter, hnone]
    rfl
  have htry : publishTry config env ownerId postText (some bytes) =
      (.error e, (uploadImage env ownerId bytes).2) := by
    unfold publishTry
    simp only
    rw [hpair]
  unfold publishPostToGroup
  rw [htry]
  simp only [hcount, wallPostCall, haccept, List.filter_append, hnone]
  simp [ApiCall.isWallPost]

theorem publishPostToGroup_falls_back_to_text_witness :
    UploadPipelineFails saveFailsPublishEnv "-123" [255, 216] ∧
      (publishPostToGroup searchConfig saveFailsPublishEnv "-123" "text" (some [255, 216])).1 =
        .ok ⟨77⟩ ∧
      (publishPostToGroup searchConfig saveFailsPublishEnv "-123" "text"
          (some [255, 216])).2.filter ApiCall.isWallPost =
        [ApiCall.wallPost ⟨"-123", "1", "text", "token", "5.131", none⟩] :=
  have hfail : UploadPipelineFails saveFailsPublishEnv "-123" [255, 216] :=
    Or.inr (Or.inr ⟨"https://upload.example/u", ⟨"1", "[]", "h"⟩, rfl, rfl,
      fun _ _ h => by cases h⟩)
  ⟨hfail, publishPostToGroup_falls_back_to_text searchConfig saveFailsPublishEnv "-123" "text"
    [255, 216] ⟨77⟩ hfail rfl⟩

/-! ### Image provider -/

/-- C10, evaluated where it fails: with search enabled and credentials
present, a search request answered with HTTP status 500 and the body
`null` makes `createImageBuffer` raise, because the catch handler of
`getImageFromGoogleSearch` reads `error.response.data.error`; the local
folder, which holds a picture, is not read.  With a JSON object as the body
of the same answer the failure is soft and the local picture is returned. -/
theorem createImageBuffer_raises_on_null_error_body :
    createImageBuffer searchConfig nullBodyImageEnv =
        (.error (plainError "Cannot read properties of null (reading error)"),
          [ImageStep.searchProvider]) ∧
      createImageBuffer searchConfig objectBodyImageEnv =
        (.ok (some [137, 80, 78, 71]), [ImageStep.searchProvider, ImageStep.localFolder]) := by
  decide

theorem googleSearchCatch_soft (error : JsError)
    (h : ∀ status, error.response = some (status, ErrorBody.nullish) → status = 429) :
    googleSearchCatch error = .ok none := by
  unfold googleSearchCatch
  split
  · rename_i status data hr
    by_cases hs : status = 429
    · simp [hs]
    · cases data with
      | nullish => exact absurd (h status hr) hs
      | value m => simp [hs]
  · rfl

theorem googleSearchTry_error_response (gs : GoogleSearchConfig) (env : ImageEnv) (e : JsError)
    (status : Nat) (data : ErrorBody) (h : googleSearchTry gs env = .error e)
    (hr : e.response = some (status, data)) :
    (∃ p, env.search p = .httpError status data) ∨ (∃ u, env.download u = .httpError status data) := by
  unfold googleSearchTry at h
  by_cases hk : (!truthy gs.apiKey || !truthy gs.searchEngineId) = true
  · rw [if_pos hk] at h
    cases h
  rw [if_neg hk] at h
  simp only at h
  generalize (if truthy gs.query = true then gs.query.getD ""
    else "красивые поздравительные открытки с днем рождения") = q at h
  split at h
  · rename_i s b hs
    simp only [Except.error.injEq] at h
    subst h
    simp only [httpErrorThrown, Option.some.injEq, Prod.mk.injEq] at hr
    obtain ⟨h1, h2⟩ := hr
    subst h1 h2
    exact Or.inl ⟨_, hs⟩
  · simp only [Except.error.injEq] at h
    subst h
    simp [plainError] at hr
  · simp only [Except.error.injEq] at h
    subst h
    simp [plainError] at hr
  · simp at h
  · split_ifs at h
    · simp only [Except.error.injEq] at h
      subst h
      simp [plainError] at hr
    · split at h
      · rename_i s b hs
        simp only [Except.error.injEq] at h
        subst h
        simp only [httpErrorThrown, Option.some.injEq, Prod.mk.injEq] at hr
        obtain ⟨h1, h2⟩ := hr
        subst h1 h2
        exact Or.inr ⟨_, hs⟩
      · simp only [Except.error.injEq] at h
        subst h
        simp [plainError] at hr
      · simp at h

theorem getImageFromGoogleSearch_soft (gs : GoogleSearchConfig) (env : ImageEnv)
    (hs : ∀ p status, env.search p = .httpError status ErrorBody.nullish → status = 429)
    (hd : ∀ u status, env.download u = .httpError status ErrorBody.nullish → status = 429) :
    ∃ r, getImageFromGoogleSearch gs env = .ok r := by
  unfold getImageFromGoogleSearch
  cases h : googleSearchTry gs env with
  | ok r => exact ⟨r, rfl⟩
  | error e =>
    refine ⟨none, ?_⟩
    simp only
    apply googleSearchCatch_soft
    intro status hr
    rcases googleSearchTry_error_response gs env e status ErrorBody.nullish h hr with ⟨p, hp⟩ | ⟨u, hu⟩
    · exact hs p status hp
    · exact hd u status hu

theorem createImageBuffer_soft (config : Config) (env : ImageEnv)
    (hs : ∀ p status, env.search p = .httpError status ErrorBody.nullish → status = 429)
    (hd : ∀ u status, env.download u = .httpError status ErrorBody.nullish → status = 429) :
    ∃ r, (createImageBuffer config env).1 = .ok r := by
  unfold createImageBuffer
  split
  · rename_i gs _
    split
    · obtain ⟨r, hr⟩ := getImageFromGoogleSearch_soft gs env hs hd
      rw [hr]
      cases r <;> simp
    · simp
  · simp

theorem createImageBuffer_order (config : Config) (env : ImageEnv) :
    (ImageStep.searchProvider ∈ (createImageBuffer config env).2 ↔
        ∃ gs, config.googleSearch = some gs ∧ gs.enable = true) ∧
      (ImageStep.searchProvider ∈ (createImageBuffer config env).2 →
        (createImageBuffer config env).2.head? = some ImageStep.searchProvider) ∧
      (ImageStep.localFolder ∈ (createImageBuffer config env).2 ↔
        (¬ ∃ gs, config.googleSearch = some gs ∧ gs.enable = true) ∨
          ∃ gs, config.googleSearch = some gs ∧ getImageFromGoogleSearch gs env = .ok none) := by
  unfold createImageBuffer
  cases hg : config.googleSearch with
  | none => simp
  | some gs =>
    cases he : gs.enable with
    | false => simp [he]
    | true =>
      cases hr : getImageFromGoogleSearch gs env with
      | error e => simp [he, hr]
      | ok r => cases r <;> simp [he, hr]

theorem createImageBuffer_steps (config : Config) (env : ImageEnv) :
    (createImageBuffer config env).2 = [ImageStep.localFolder] ∨
      (createImageBuffer config env).2 = [ImageStep.searchProvider] ∨
      (createImageBuffer config env).2 = [ImageStep.searchProvider, ImageStep.localFolder] := by
  unfold createImageBuffer
  split
  · split
    · split <;> simp
    · simp
  · simp

/-! ### Orchestrator -/

/-- C9, as the code has it: the run ends with status zero when the
configuration cannot be loaded, in the reset, status and help modes, when
the lock blocks the run, and when the publisher fails in both attempts; it
ends with status one when the group resolver fails and when the member
fetcher fails. -/
theorem run_exit_status (w : World) (fuel : Nat) :
    (w.config = none → run w fuel = some ExitOutcome.normalCompletion) ∧
      (∀ config, w.config = some config → fullFlow w = false →
        run w fuel = some ExitOutcome.normalCompletion) ∧
      (∀ config, w.config = some config → fullFlow w = true →
        (checkAndCreateLock w.now w.localOffset w.writeOk w.lockFile).1 = false →
        run w fuel = some ExitOutcome.normalCompletion) ∧
      (∀ config e, w.config = some config → fullFlow w = true →
        (checkAndCreateLock w.now w.localOffset w.writeOk w.lockFile).1 = true →
        getGroupId w.groupsGetById config.groupId = .error e →
        run w fuel = some (ExitOutcome.exitFailure 1)) ∧
      (∀ config id e log, w.config = some config → fullFlow w = true →
        (checkAndCreateLock w.now w.localOffset w.writeOk w.lockFile).1 = true →
        getGroupId w.groupsGetById config.groupId = .ok id →
        getAllGroupMembers (w.groupsGetMembers config.groupId) fuel = some (.error e, log) →
        run w fuel = some (ExitOutcome.exitFailure 1)) ∧
      (∀ config id members log img e, w.config = some config → fullFlow w = true →
        (checkAndCreateLock w.now w.localOffset w.writeOk w.lockFile).1 = true →
        getGroupId w.groupsGetById config.groupId = .ok id →
        getAllGroupMembers (w.groupsGetMembers config.groupId) fuel = some (.ok members, log) →
        (createImageBuffer config w.image).1 = .ok img →
        (publishPostToGroup config w.publish id
          (createCongratulationsPost w.now w.localOffset
            (members.filter (fun member => isBirthdayToday w.now w.tz member.bdate)))
          img).1 = .error e →
        run w fuel = some ExitOutcome.normalCompletion) := by
  refine ⟨?_, ?_, ?_, ?_, ?_, ?_⟩
  · intro hc
    simp [run, main, hc]
  · intro config hc hflow
    unfold fullFlow at hflow
    unfold run main
    rw [hc]
    simp only
    split_ifs <;> simp_all
  · intro config hc hflow hlock
    simp [fullFlow] at hflow
    simp [run, main, hc, hflow, hlock]
  · intro config e hc hflow hlock hgroup
    simp [fullFlow] at hflow
    simp [run, main, hc, hflow, hlock, hgroup]
  · intro config id e log hc hflow hlock hgroup hmembers
    simp [fullFlow] at hflow
    simp [run, main, hc, hflow, hlock, hgroup, hmembers]
  · intro config id members log img e hc hflow hlock hgroup hmembers himg hpub
    simp only [fullFlow, Bool.and_eq_true, Bool.not_eq_true', Bool.not_eq_eq_eq_not,
      Bool.not_true] at hflow
    obtain ⟨⟨⟨h1, h2⟩, h3⟩, h4⟩ := hflow
    have hpair : publishPostToGroup config w.publish id
        (createCongratulationsPost w.now w.localOffset
          (members.filter (fun member => isBirthdayToday w.now w.tz member.bdate)))
        img = (.error e, (publishPostToGroup config w.publish id
        (createCongratulationsPost w.now w.localOffset
          (members.filter (fun member => isBirthdayToday w.now w.tz member.bdate)))
        img).2) := Prod.ext hpub rfl
    simp only [run, main, hc, h1, h2, h3, h4, hlock, hgroup, hmembers, himg]
    simp only [Bool.false_eq_true, if_false, Bool.or_self, Bool.not_true]
    rw [hpair]
    rfl

/-- C9 as stated fails: a run whose configuration cannot be loaded, and a
full run in which both publisher attempts fail, end in normal completion
and not with status one (while a run whose group lookup fails does end with
status one). -/
theorem run_config_or_publish_failure_exits_zero :
    run (sampleWorld [] none LockFile.absent offlinePublishEnv) 5 =
        some ExitOutcome.normalCompletion ∧
      (publishPostToGroup plainConfig offlinePublishEnv "-123"
        (createCongratulationsPost 1704110400000 0 [⟨10, "Anna", "Ivanova", BDate.str "1.1.1990"⟩])
        none).1 = .error (plainError "offline") ∧
      run (sampleWorld [] (some plainConfig) LockFile.absent offlinePublishEnv) 5 =
        some ExitOutcome.normalCompletion := by
  decide

end MediaCenterBot
